import Mathlib

/-!
Shallow embedding of `wordpirate.py`, a script migrating a WordPress blog
to a static-site file layout, together with theorems settling the frozen
claims about it.  Python machine-level details (HTTP transport, JSON text
parsing of responses, process exit) are abstracted: a server is a function
from requests to already-parsed bodies, the filesystem is a pair of
membership maps, and Python exceptions are an explicit error type.
-/

namespace Wordpirate

/-! ## Timestamps: model of `datetime` + `pytz.UTC` as used by the script -/

/-- Model of a Python `datetime.datetime` value as produced by
`datetime.fromisoformat` and `pytz.UTC.localize`.  The only time zone the
script ever attaches is UTC, so the `tzinfo` slot is modelled by the
Boolean `tzUtc` (`false` = naive datetime, `true` = tzinfo is UTC). -/
structure PyDateTime where
  year : Nat
  month : Nat
  day : Nat
  hour : Nat
  minute : Nat
  second : Nat
  microsecond : Nat
  tzUtc : Bool
deriving DecidableEq

/-- Decimal rendering of `n` left-padded with zeros to width `w`,
as Python's `%0*d` used by `datetime.isoformat`. -/
def padNum (w : Nat) (n : Nat) : String :=
  let s := toString n
  String.mk (List.replicate (w - s.length) '0') ++ s

/-- Model of Python `datetime.isoformat()`: `YYYY-MM-DDTHH:MM:SS`, then
`.ffffff` only when the microsecond field is nonzero, then the UTC offset
`+00:00` only when the datetime is timezone-aware (UTC being the only
zone the script produces). -/
def PyDateTime.isoformat (d : PyDateTime) : String :=
  padNum 4 d.year ++ "-" ++ padNum 2 d.month ++ "-" ++ padNum 2 d.day ++ "T" ++
  padNum 2 d.hour ++ ":" ++ padNum 2 d.minute ++ ":" ++ padNum 2 d.second ++
  (if d.microsecond = 0 then "" else "." ++ padNum 6 d.microsecond) ++
  (if d.tzUtc then "+00:00" else "")

/-- Value of a decimal digit character, `none` on a non-digit. -/
def digitVal (c : Char) : Option Nat :=
  if 48 ≤ c.toNat ∧ c.toNat ≤ 57 then some (c.toNat - 48) else none

/-- Two decimal digit characters as a number. -/
def twoDigits (a b : Char) : Option Nat :=
  match digitVal a, digitVal b with
  | some x, some y => some (10 * x + y)
  | _, _ => none

/-- Four decimal digit characters as a number. -/
def fourDigits (a b c d : Char) : Option Nat :=
  match twoDigits a b, twoDigits c d with
  | some x, some y => some (100 * x + y)
  | _, _ => none

/-- Gregorian leap-year test, as Python `calendar.isleap` /
`datetime`'s internal `_is_leap`. -/
def isLeap (y : Nat) : Bool :=
  y % 4 = 0 && (y % 100 != 0 || y % 400 = 0)

/-- Days in a month, as `datetime`'s internal `_days_in_month`. -/
def daysInMonth (y m : Nat) : Nat :=
  if m = 2 then (if isLeap y then 29 else 28)
  else if m = 4 ∨ m = 6 ∨ m = 9 ∨ m = 11 then 30
  else 31

/-- Range validation performed by the `datetime` constructor. -/
def validDate (y mo d h mi s : Nat) : Bool :=
  decide (1 ≤ y ∧ y ≤ 9999 ∧ 1 ≤ mo ∧ mo ≤ 12 ∧ 1 ≤ d ∧ d ≤ daysInMonth y mo
    ∧ h ≤ 23 ∧ mi ≤ 59 ∧ s ≤ 59)

/-- Model of the time-of-day part of Python 3.8 `datetime.fromisoformat`:
`HH`, `HH:MM`, `HH:MM:SS`, optionally followed by a fraction of exactly
3 or 6 digits.  Restriction of the model: the optional trailing UTC-offset
suffix accepted by Python is not modelled (such strings parse to `none`
here); the script's claims only concern offset-free inputs, and on every
offset-free string this matches Python. -/
def parseTimePart (l : List Char) : Option (Nat × Nat × Nat × Nat) :=
  match l with
  | [h1, h2] => do
    let h ← twoDigits h1 h2
    pure (h, 0, 0, 0)
  | [h1, h2, ':', m1, m2] => do
    let h ← twoDigits h1 h2
    let m ← twoDigits m1 m2
    pure (h, m, 0, 0)
  | [h1, h2, ':', m1, m2, ':', s1, s2] => do
    let h ← twoDigits h1 h2
    let m ← twoDigits m1 m2
    let s ← twoDigits s1 s2
    pure (h, m, s, 0)
  | [h1, h2, ':', m1, m2, ':', s1, s2, '.', f1, f2, f3] => do
    let h ← twoDigits h1 h2
    let m ← twoDigits m1 m2
    let s ← twoDigits s1 s2
    let f ← twoDigits f1 f2
    let f3v ← digitVal f3
    pure (h, m, s, (10 * f + f3v) * 1000)
  | [h1, h2, ':', m1, m2, ':', s1, s2, '.', f1, f2, f3, f4, f5, f6] => do
    let h ← twoDigits h1 h2
    let m ← twoDigits m1 m2
    let s ← twoDigits s1 s2
    let f ← twoDigits f1 f2
    let g ← twoDigits f3 f4
    let k ← twoDigits f5 f6
    pure (h, m, s, 10000 * f + 100 * g + k)
  | _ => none

/-- Model of Python 3.8 `datetime.fromisoformat` on offset-free strings:
`YYYY-MM-DD` alone, or `YYYY-MM-DD` + one separator character + a
time-of-day part (see `parseTimePart`); range-checked; always yields a
naive datetime.  `none` models the `ValueError` Python raises. -/
def fromisoformat (str : String) : Option PyDateTime :=
  match str.data with
  | [y1, y2, y3, y4, '-', mo1, mo2, '-', d1, d2] =>
    match fourDigits y1 y2 y3 y4, twoDigits mo1 mo2, twoDigits d1 d2 with
    | some y, some mo, some d =>
      if validDate y mo d 0 0 0 then some ⟨y, mo, d, 0, 0, 0, 0, false⟩ else none
    | _, _, _ => none
  | y1 :: y2 :: y3 :: y4 :: '-' :: mo1 :: mo2 :: '-' :: d1 :: d2 :: _sep :: rest =>
    match fourDigits y1 y2 y3 y4, twoDigits mo1 mo2, twoDigits d1 d2,
        parseTimePart rest with
    | some y, some mo, some d, some t =>
      if validDate y mo d t.1 t.2.1 t.2.2.1 then
        some ⟨y, mo, d, t.1, t.2.1, t.2.2.1, t.2.2.2, false⟩
      else none
    | _, _, _, _ => none
  | _ => none

/-- Model of `pytz.UTC.localize`: attaches UTC to a naive datetime,
raises `ValueError` (modelled as `none`) on an already-aware one. -/
def utcLocalize (d : PyDateTime) : Option PyDateTime :=
  if d.tzUtc then none else some { d with tzUtc := true }

/-! ## Model of Python's `html.unescape` -/

/-- Named character references recognized by the model of `html.unescape`,
as (name, replacement); a name including the trailing `;` must precede its
semicolon-less variant so the longest form wins, matching Python, whose
`html5` table contains both forms for these legacy entities (but only the
`;` form for `apos`).  Restriction of the model: Python's table has about
two thousand entries; this model carries the five entity families the
WordPress content of interest uses. -/
def htmlNamedRefs : List (List Char × Char) :=
  [ (['a', 'm', 'p', ';'], '&'), (['a', 'm', 'p'], '&'),
    (['l', 't', ';'], '<'), (['l', 't'], '<'),
    (['g', 't', ';'], '>'), (['g', 't'], '>'),
    (['q', 'u', 'o', 't', ';'], '"'), (['q', 'u', 'o', 't'], '"'),
    (['a', 'p', 'o', 's', ';'], Char.ofNat 39) ]

/-- Value of a hexadecimal digit character. -/
def hexVal (c : Char) : Option Nat :=
  if 48 ≤ c.toNat ∧ c.toNat ≤ 57 then some (c.toNat - 48)
  else if 97 ≤ c.toNat ∧ c.toNat ≤ 102 then some (c.toNat - 87)
  else if 65 ≤ c.toNat ∧ c.toNat ≤ 70 then some (c.toNat - 55)
  else none

/-- Replacement character for a numeric character reference, as
`html._replace_charref`: surrogates, out-of-range values and NUL map to
U+FFFD, others to the code point itself.  Restriction of the model: the
windows-1252 remapping table and the invalid-code-point deletions of the
Python original are not modelled. -/
def charOfNumRef (n : Nat) : Char :=
  if n = 0 ∨ (55296 ≤ n ∧ n ≤ 57343) ∨ 1114111 < n then Char.ofNat 65533
  else Char.ofNat n

/-- Match a numeric character reference right after a `&`: `#` then decimal
digits, or `#x`/`#X` then hex digits, then an optional `;`.  Returns the
replacement character and the number of characters consumed. -/
def matchNumeric (l : List Char) : Option (Char × Nat) :=
  match l with
  | '#' :: rest =>
    let hex : Bool := match rest with
      | 'x' :: _ => true
      | 'X' :: _ => true
      | _ => false
    let body := if hex then rest.tail else rest
    let val : Char → Option Nat := if hex then hexVal else digitVal
    let ds := body.takeWhile (fun c => (val c).isSome)
    if ds.isEmpty then none
    else
      let n := ds.foldl (fun a c => a * (if hex then 16 else 10) + (val c).getD 0) 0
      let after := body.drop ds.length
      let semi := match after with
        | ';' :: _ => 1
        | _ => 0
      some (charOfNumRef n, 1 + (if hex then 1 else 0) + ds.length + semi)
  | _ => none

/-- Match any character reference right after a `&`: numeric, or the
longest named entity from `htmlNamedRefs`.  Returns the replacement and
the number of characters consumed; `none` leaves the `&` literal. -/
def matchCharRef (l : List Char) : Option (Char × Nat) :=
  match matchNumeric l with
  | some r => some r
  | none =>
    (htmlNamedRefs.find? (fun e => e.1.isPrefixOf l)).map
      (fun e => (e.2, e.1.length))

/-- Scanner of the `html.unescape` model: each `&` starting a recognized
character reference is replaced, any other character is copied.  The
fuel argument (instantiated with the input length, which bounds the
number of characters ever consumed) keeps the recursion structural. -/
def unescapeAux : Nat → List Char → List Char
  | _, [] => []
  | 0, _ :: _ => []
  | fuel + 1, c :: rest =>
    if c = '&' then
      match matchCharRef rest with
      | some (e, n) => e :: unescapeAux fuel (rest.drop n)
      | none => '&' :: unescapeAux fuel rest
    else
      c :: unescapeAux fuel rest

/-- Model of Python `html.unescape` (see the restrictions on
`htmlNamedRefs` and `charOfNumRef`). -/
def unescape (s : String) : String :=
  String.mk (unescapeAux s.data.length s.data)

/-! ## Model of `json.dumps` on the shapes the script serializes

The script serializes one dict whose values are strings and lists of
strings, with `json.dumps`'s defaults: `ensure_ascii=True`, separators
`", "` and `": "`. -/

/-- Lowercase hexadecimal digit character, as Python's `%04x`. -/
def hexDigitChar (n : Nat) : Char :=
  Char.ofNat (if n < 10 then 48 + n else 87 + n)

/-- The six-character escape `\uXXXX` for a code unit `n < 0x10000`. -/
def uEscape (n : Nat) : List Char :=
  ['\\', 'u', hexDigitChar (n / 4096 % 16), hexDigitChar (n / 256 % 16),
   hexDigitChar (n / 16 % 16), hexDigitChar (n % 16)]

/-- Escape of one character, as CPython's
`json.encoder.py_encode_basestring_ascii`: the two-character escapes for
backslash, quote and the five named control characters, `\uXXXX` for the
other controls and for all non-ASCII characters (a surrogate pair above
U+FFFF), and the character itself for printable ASCII. -/
def escChar (c : Char) : List Char :=
  if c = '\\' then ['\\', '\\']
  else if c = '"' then ['\\', '"']
  else if c.toNat = 8 then ['\\', 'b']
  else if c.toNat = 9 then ['\\', 't']
  else if c.toNat = 10 then ['\\', 'n']
  else if c.toNat = 12 then ['\\', 'f']
  else if c.toNat = 13 then ['\\', 'r']
  else if c.toNat < 32 then uEscape c.toNat
  else if c.toNat < 127 then [c]
  else if c.toNat < 65536 then uEscape c.toNat
  else uEscape (55296 + (c.toNat - 65536) / 1024) ++
       uEscape (56320 + (c.toNat - 65536) % 1024)

/-- Escape of a whole string body. -/
def escString (l : List Char) : List Char := (l.map escChar).flatten

/-- JSON encoding of a string, quotes included. -/
def encStr (s : String) : List Char := '"' :: escString s.data ++ ['"']

/-- Python `sep.join(parts)`, at the character-list level. -/
def sepJoin (sep : List Char) : List (List Char) → List Char
  | [] => []
  | [x] => x
  | x :: y :: rest => x ++ sep ++ sepJoin sep (y :: rest)

/-- A JSON value of the shapes the script puts in its metadata dict. -/
inductive JVal where
  | str : String → JVal
  | arr : List String → JVal
deriving DecidableEq

/-- JSON encoding of a value (list item separator `", "`). -/
def encJVal : JVal → List Char
  | .str s => encStr s
  | .arr xs => '[' :: sepJoin [',', ' '] (xs.map encStr) ++ [']']

/-- JSON encoding of one `"key": value` member (separator `": "`). -/
def encMember (p : String × JVal) : List Char :=
  encStr p.1 ++ ':' :: ' ' :: encJVal p.2

/-- Model of `json.dumps` on one object, keys kept in insertion order as
Python does for a dict literal. -/
def jsonDumps (pairs : List (String × JVal)) : List Char :=
  '{' :: sepJoin [',', ' '] (pairs.map encMember) ++ ['}']

/-! ## The `Post` dataclass and its rendering -/

/-- The `Post` dataclass of the script. -/
structure Post where
  published : PyDateTime
  modified : PyDateTime
  title : String
  slug : String
  content : String
  summary : String
  aliases : List String
  categories : List String
  tags : List String
  author : String := ""
deriving DecidableEq

/-- The fixed key order of the metadata dict built by
`Post.front_matter` in the source. -/
def frontMatterPairs (p : Post) : List (String × JVal) :=
  [("title", .str p.title),
   ("categories", .arr p.categories),
   ("tags", .arr p.tags),
   ("aliases", .arr p.aliases),
   ("author", .str p.author),
   ("date", .str p.published.isoformat),
   ("lastmod", .str p.modified.isoformat),
   ("slug", .str p.slug),
   ("summary", .str p.summary)]

/-- Embedding of the `Post.front_matter` property: `json.dumps` of the
metadata dict. -/
def Post.front_matter (p : Post) : String :=
  String.mk (jsonDumps (frontMatterPairs p))

/-- Embedding of the `Post.md` property:
`f"{self.front_matter}\n\n{self.content}"`. -/
def Post.md (p : Post) : String :=
  p.front_matter ++ "\n\n" ++ p.content

/-! ## HTTP layer: `Extractor.get` and `Extractor.pageWhileList`

A request is modelled by the data `requests.get` is called with; a server
is a function from requests to already-parsed JSON bodies, where `some xs`
models a JSON list response and `none` any non-list body. -/

/-- An outgoing HTTP GET request, as assembled by `Extractor.get`.
Parameter values are modelled in their URL-encoded string form (Python
passes the int `page` and int/str `base_params` values; `requests`
stringifies them on the wire). -/
structure Request where
  url : String
  params : List (String × String)
  headers : List (String × String)
deriving DecidableEq

/-- The `Extractor.BASE_HEADERS` constant. -/
def BASE_HEADERS : List (String × String) :=
  [("User-Agent",
    "Mozilla/5.0 (X11; Linux x86_64; rv:83.0) Gecko/20100101 Firefox/83.0")]

/-- Python `dict.update` on association lists: keys of `base` keep their
position with values overridden by `upd`, new keys of `upd` are appended
in order. -/
def dictUpdate (base upd : List (String × String)) : List (String × String) :=
  base.map (fun kv =>
    match upd.find? (fun kv2 => kv2.1 == kv.1) with
    | some kv2 => (kv.1, kv2.2)
    | none => kv) ++
  upd.filter (fun kv2 => ¬ base.any (fun kv => kv.1 == kv2.1))

/-- Embedding of `Extractor.get`: the request that
`requests.get(url=url, params=params, headers=full_headers)` is issued
with, where `full_headers` is `BASE_HEADERS` updated by the caller's
headers. -/
def Extractor.get (url : String) (params : List (String × String))
    (headers : List (String × String)) : Request :=
  { url := url, params := params, headers := dictUpdate BASE_HEADERS headers }

/-- The default value of `pageWhileList`'s `base_params` argument in the
source: `{"per_page": 100, "order": "asc", "orderby": "id"}`. -/
def base_params_default : List (String × String) :=
  [("per_page", "100"), ("order", "asc"), ("orderby", "id")]

/-- The request `pageWhileList` issues for one page: in the source the
call is `self.get(url=url, params=dict(page=page))` — only `page` is
passed; the `base_params` argument does not appear in the call. -/
def mkPageRequest (url : String) (page : Nat) : Request :=
  Extractor.get url [("page", toString page)] []

/-- Loop body of `Extractor.pageWhileList`, starting at page number
`page`, with explicit fuel standing in for the unbounded `while` (the
source loop does not terminate on a server that never answers with an
empty or non-list body).  Returns the elements yielded and the requests
issued, in order. -/
def pageWhileListAux (server : Request → Option (List α)) (url : String)
    (page : Nat) : Nat → List α × List Request
  | 0 => ([], [])
  | fuel + 1 =>
    let req := mkPageRequest url page
    match server req with
    | some items =>
      if items.length > 0 then
        let r := pageWhileListAux server url (page + 1) fuel
        (items ++ r.1, req :: r.2)
      else ([], [req])
    | none => ([], [req])

set_option linter.unusedVariables false in
/-- Embedding of `Extractor.pageWhileList`.  Its `base_params` argument
is declared in the source with default
`{"per_page": 100, "order": "asc", "orderby": "id"}` but is never used in
the loop body, which this embedding mirrors: the parameter is accepted
and ignored. -/
def pageWhileList (server : Request → Option (List α)) (url : String)
    (base_params : List (String × String) := base_params_default)
    (fuel : Nat) : List α × List Request :=
  pageWhileListAux server url 1 fuel

/-! ## Reference caches: `Extractor.categories` / `Extractor.tags` -/

/-- A raw category or tag record; the script reads its `id` and `name`
fields. -/
structure TermRec where
  id : Nat
  name : String
deriving DecidableEq

/-- The dict comprehension `{x["id"]: x for x in ...}`: a later record
with the same id overrides an earlier one. -/
def buildDict (xs : List TermRec) : Nat → Option TermRec :=
  xs.foldl (fun m x => fun i => if i = x.id then some x else m i) (fun _ => none)

/-- The memoization slots `functools.cached_property` adds to an
`Extractor` instance for `categories` and `tags` (absent until the first
access, then holding the computed dict forever). -/
structure ExtractorState where
  categoriesCache : Option (Nat → Option TermRec)
  tagsCache : Option (Nat → Option TermRec)

/-- A fresh `Extractor` instance: no cached property computed yet. -/
def ExtractorState.init : ExtractorState := ⟨none, none⟩

/-- The categories endpoint URL `f"{base_url}/wp-json/wp/v2/categories"`. -/
def categoriesURL (base_url : String) : String :=
  base_url ++ "/wp-json/wp/v2/categories"

/-- The tags endpoint URL `f"{base_url}/wp-json/wp/v2/tags"`. -/
def tagsURL (base_url : String) : String :=
  base_url ++ "/wp-json/wp/v2/tags"

/-- The posts endpoint URL `f"{base_url}/wp-json/wp/v2/posts"`. -/
def postsURL (base_url : String) : String :=
  base_url ++ "/wp-json/wp/v2/posts"

/-- Access to the `Extractor.categories` cached property: on a cache miss
run the paginated fetch and store the dict, on a hit return the memoized
dict and leave the state untouched.  The Boolean reports whether a
paginated fetch was performed by this access. -/
def getCategories (server : Request → Option (List TermRec))
    (base_url : String) (fuel : Nat) (s : ExtractorState) :
    (Nat → Option TermRec) × ExtractorState × Bool :=
  match s.categoriesCache with
  | some d => (d, s, false)
  | none =>
    let d := buildDict
      (pageWhileList server (categoriesURL base_url) base_params_default fuel).1
    (d, { s with categoriesCache := some d }, true)

/-- Access to the `Extractor.tags` cached property; see `getCategories`. -/
def getTags (server : Request → Option (List TermRec))
    (base_url : String) (fuel : Nat) (s : ExtractorState) :
    (Nat → Option TermRec) × ExtractorState × Bool :=
  match s.tagsCache with
  | some d => (d, s, false)
  | none =>
    let d := buildDict
      (pageWhileList server (tagsURL base_url) base_params_default fuel).1
    (d, { s with tagsCache := some d }, true)

/-! ## Post normalization: `Extractor.enhance_post` -/

/-- The Python exceptions the normalizer can raise: `ValueError` from
`datetime.fromisoformat` / `pytz.UTC.localize`, `KeyError i` from a
`self.categories[i]` or `self.tags[i]` dict lookup with a missing key. -/
inductive PyError where
  | valueError : PyError
  | keyError : Nat → PyError
deriving DecidableEq

/-- A `{"rendered": ...}` sub-object of a raw post record. -/
structure Rendered where
  rendered : String
deriving DecidableEq

/-- A raw post record, with the fields the script reads. -/
structure RawPost where
  id : Nat
  date_gmt : String
  modified_gmt : String
  title : Rendered
  slug : String
  categories : List Nat
  tags : List Nat
  content : Rendered
  excerpt : Rendered
deriving DecidableEq

/-- The `list(map(lambda i: cache[i]["name"], ids))` resolution: each id
looked up left to right, the first missing id raising `KeyError`. -/
def resolveNames (cache : Nat → Option TermRec) :
    List Nat → Except PyError (List String)
  | [] => .ok []
  | i :: is =>
    match cache i with
    | none => .error (.keyError i)
    | some r =>
      match resolveNames cache is with
      | .error e => .error e
      | .ok ns => .ok (r.name :: ns)

/-- Embedding of `Extractor.enhance_post`, taking the two reference
dicts (the values of the `categories` and `tags` cached properties) as
arguments.  The error cases follow Python's evaluation order of the
`Post(...)` keyword arguments: the two timestamps are computed before the
category lookups, and those before the tag lookups. -/
def enhance_post (cats tgs : Nat → Option TermRec) (data : RawPost) :
    Except PyError Post :=
  match fromisoformat data.date_gmt with
  | none => .error .valueError
  | some pd =>
  match utcLocalize pd with
  | none => .error .valueError
  | some published =>
  match fromisoformat data.modified_gmt with
  | none => .error .valueError
  | some md0 =>
  match utcLocalize md0 with
  | none => .error .valueError
  | some modified =>
  match resolveNames cats data.categories with
  | .error e => .error e
  | .ok catNames =>
  match resolveNames tgs data.tags with
  | .error e => .error e
  | .ok tagNames =>
    .ok { published := published, modified := modified,
          title := unescape data.title.rendered,
          slug := data.slug,
          content := unescape data.content.rendered,
          summary := unescape data.excerpt.rendered,
          aliases := [],
          categories := catNames, tags := tagNames, author := "" }

/-! ## Filesystem and `Constructor` -/

/-- The filesystem state the script touches: which directories exist and
which files hold which text.  Paths are lists of path segments. -/
@[ext]
structure FS where
  dirs : List String → Bool
  files : List String → Option String

/-- Model of `Path.mkdir(parents=True, exist_ok=True)`: the directory and
every ancestor of it exist afterwards, everything else is unchanged. -/
def mkdirParents (fs : FS) (path : List String) : FS :=
  { fs with dirs := fun d => if d <+: path then true else fs.dirs d }

/-- The `Constructor.posts_directory` path `base_path / "content" / "posts"`. -/
def posts_directory (base_path : List String) : List String :=
  base_path ++ ["content", "posts"]

/-- Embedding of `Constructor.add_post` (together with the `mkdir` in the
`posts_directory` cached property, which is idempotent, so replaying it
on every call is equivalent to the memoized single run): create
`<base>/content/posts` and `<base>/content/posts/<slug>` with parents,
then write `post.md` to `index.md` in the latter, overwriting
unconditionally. -/
def add_post (base_path : List String) (fs : FS) (post : Post) : FS :=
  let fs1 := mkdirParents fs (posts_directory base_path)
  let dir := posts_directory base_path ++ [post.slug]
  let fs2 := mkdirParents fs1 dir
  { fs2 with files := fun q =>
      if q = dir ++ ["index.md"] then some post.md else fs2.files q }

/-- The path of the file `add_post` writes for a post with slug `slug`. -/
def postFilePath (base_path : List String) (slug : String) : List String :=
  (posts_directory base_path ++ [slug]) ++ ["index.md"]

/-- Embedding of the `__main__` driving loop
`for post in e.get_posts(): c.add_post(post)` over an already fetched
list of raw records, with the reference dicts already populated (the
first category resolution populates them before any post is written):
normalize and write each post in order; the first exception stops the
loop, leaving the files written so far in place. -/
def runPipeline (cats tgs : Nat → Option TermRec) (base_path : List String)
    (raws : List RawPost) (fs : FS) : FS × Option PyError :=
  match raws with
  | [] => (fs, none)
  | r :: rest =>
    match enhance_post cats tgs r with
    | .error e => (fs, some e)
    | .ok p => runPipeline cats tgs base_path rest (add_post base_path fs p)

/-! ## Concrete fixtures used by the witness theorems -/

/-- A category cache holding ids 3 and 7, as in the spec's resolution
example. -/
def sampleCats : Nat → Option TermRec := fun i =>
  if i = 3 then some ⟨3, "News"⟩
  else if i = 7 then some ⟨7, "Events"⟩
  else none

/-- An empty tag cache. -/
def sampleTags : Nat → Option TermRec := fun _ => none

/-- A raw post exercising the resolution and unescaping examples. -/
def sampleRaw : RawPost :=
  { id := 1, date_gmt := "2020-01-02T03:04:05",
    modified_gmt := "2020-03-04T05:06:07",
    title := ⟨"A &amp; B"⟩, slug := "hello-world",
    categories := [3, 7], tags := [],
    content := ⟨"Body &amp; soul"⟩, excerpt := ⟨"Sum"⟩ }

/-- A raw post referencing category id 5, absent from `sampleCats`. -/
def badRaw : RawPost :=
  { id := 2, date_gmt := "2020-01-02T03:04:05",
    modified_gmt := "2020-01-02T03:04:05",
    title := ⟨"T"⟩, slug := "missing-cat",
    categories := [5], tags := [],
    content := ⟨"c"⟩, excerpt := ⟨"e"⟩ }

/-- A filesystem with no directories and no files. -/
def emptyFS : FS := ⟨fun _ => false, fun _ => none⟩

/-- A normalized post fixture. -/
def samplePost : Post :=
  { published := ⟨2020, 1, 2, 3, 4, 5, 0, true⟩,
    modified := ⟨2020, 3, 4, 5, 6, 7, 0, true⟩,
    title := "A & B", slug := "hello-world",
    content := "Body", summary := "S",
    aliases := [], categories := ["General"], tags := [], author := "" }

/-- A different post with the same slug as `samplePost`. -/
def samplePost2 : Post :=
  { published := ⟨2021, 6, 7, 8, 9, 10, 0, true⟩,
    modified := ⟨2021, 6, 7, 8, 9, 10, 0, true⟩,
    title := "Second", slug := "hello-world",
    content := "New body", summary := "S2",
    aliases := [], categories := [], tags := ["t"], author := "" }

/-! ## Helper lemmas -/

/-- A member of a separator-join is in the separator or in one of the
parts. -/
lemma mem_sepJoin {sep : List Char} {xs : List (List Char)} {a : Char}
    (h : a ∈ sepJoin sep xs) : a ∈ sep ∨ ∃ l ∈ xs, a ∈ l := by
  induction xs with
  | nil => simp [sepJoin] at h
  | cons x rest ih =>
    cases rest with
    | nil =>
      exact Or.inr ⟨x, by simp, h⟩
    | cons y rest2 =>
      simp only [sepJoin, List.append_assoc, List.mem_append] at h
      rcases h with h | h | h
      · exact Or.inr ⟨x, by simp, h⟩
      · exact Or.inl h
      · rcases ih h with h2 | ⟨l, hl, ha⟩
        · exact Or.inl h2
        · exact Or.inr ⟨l, by simp [hl], ha⟩

lemma hexDigitChar_lt16_ne : ∀ n, n < 16 → hexDigitChar n ≠ '\n' := by decide

lemma uEscape_no_nl (n : Nat) : '\n' ∉ uEscape n := by
  intro h
  simp only [uEscape, List.mem_cons, List.not_mem_nil, or_false] at h
  rcases h with h | h | h | h | h | h
  · exact absurd h (by decide)
  · exact absurd h (by decide)
  · exact hexDigitChar_lt16_ne _ (Nat.mod_lt _ (by omega)) h.symm
  · exact hexDigitChar_lt16_ne _ (Nat.mod_lt _ (by omega)) h.symm
  · exact hexDigitChar_lt16_ne _ (Nat.mod_lt _ (by omega)) h.symm
  · exact hexDigitChar_lt16_ne _ (Nat.mod_lt _ (by omega)) h.symm

set_option maxHeartbeats 1000000 in
lemma escChar_no_nl (c : Char) : '\n' ∉ escChar c := by
  intro h
  unfold escChar at h
  split_ifs at h with h1 h2 h3 h4 h5 h6 h7 h8 h9 h10
  · exact absurd h (by decide)
  · exact absurd h (by decide)
  · exact absurd h (by decide)
  · exact absurd h (by decide)
  · exact absurd h (by decide)
  · exact absurd h (by decide)
  · exact absurd h (by decide)
  · exact uEscape_no_nl _ h
  · have hc : c = '\n' := (List.mem_singleton.mp h).symm
    subst hc
    exact h8 (by decide)
  · exact uEscape_no_nl _ h
  · rcases List.mem_append.mp h with h | h
    · exact uEscape_no_nl _ h
    · exact uEscape_no_nl _ h

lemma escString_no_nl (l : List Char) : '\n' ∉ escString l := by
  intro h
  simp only [escString, List.mem_flatten] at h
  rcases h with ⟨m, hm, hnm⟩
  rcases List.mem_map.mp hm with ⟨c, _, rfl⟩
  exact escChar_no_nl c hnm

lemma encStr_no_nl (s : String) : '\n' ∉ encStr s := by
  intro h
  simp only [encStr, List.mem_append, List.mem_cons, List.mem_singleton] at h
  rcases h with (h | h) | h
  · exact absurd h (by decide)
  · exact escString_no_nl _ h
  · exact absurd h (by decide)

lemma encJVal_no_nl (v : JVal) : '\n' ∉ encJVal v := by
  intro h
  cases v with
  | str s => exact encStr_no_nl s h
  | arr xs =>
    simp only [encJVal, List.mem_append, List.mem_cons, List.mem_singleton] at h
    rcases h with (h | h) | h
    · exact absurd h (by decide)
    · rcases mem_sepJoin h with h2 | ⟨l, hl, ha⟩
      · exact absurd h2 (by decide)
      · rcases List.mem_map.mp hl with ⟨s, _, rfl⟩
        exact encStr_no_nl s ha
    · exact absurd h (by decide)

lemma encMember_no_nl (p : String × JVal) : '\n' ∉ encMember p := by
  intro h
  simp only [encMember, List.mem_append, List.mem_cons] at h
  rcases h with h | h | h | h
  · exact encStr_no_nl _ h
  · exact absurd h (by decide)
  · exact absurd h (by decide)
  · exact encJVal_no_nl _ h

lemma jsonDumps_no_nl (pairs : List (String × JVal)) : '\n' ∉ jsonDumps pairs := by
  intro h
  simp only [jsonDumps, List.mem_cons, List.mem_append, List.mem_singleton] at h
  rcases h with (h | h) | h
  · exact absurd h (by decide)
  · rcases mem_sepJoin h with h2 | ⟨l, hl, ha⟩
    · exact absurd h2 (by decide)
    · rcases List.mem_map.mp hl with ⟨p, _, rfl⟩
      exact encMember_no_nl p ha
  · exact absurd h (by decide)

/-- Every datetime `fromisoformat` returns is naive (the model covers the
offset-free inputs only, see `parseTimePart`). -/
lemma fromisoformat_tz (s : String) (d : PyDateTime)
    (h : fromisoformat s = some d) : d.tzUtc = false := by
  unfold fromisoformat at h
  split at h
  · split at h
    · split at h
      · cases h
        rfl
      · cases h
    · cases h
  · split at h
    · split at h
      · cases h
        rfl
      · cases h
    · cases h
  · cases h

/-- Attaching UTC to a naive datetime appends the offset to its ISO
rendering. -/
lemma isoformat_localized (d : PyDateTime) (h : d.tzUtc = false) :
    PyDateTime.isoformat { d with tzUtc := true }
      = d.isoformat ++ "+00:00" := by
  simp [PyDateTime.isoformat, h, String.append_empty]

/-- Success shape of `enhance_post`: if both timestamps parse and both
resolutions succeed, the produced `Post` is exactly the field mapping of
the source. -/
lemma enhance_post_ok (cats tgs : Nat → Option TermRec) (data : RawPost)
    (d m : PyDateTime) (cnames tnames : List String)
    (hd : fromisoformat data.date_gmt = some d)
    (hm : fromisoformat data.modified_gmt = some m)
    (hc : resolveNames cats data.categories = .ok cnames)
    (ht : resolveNames tgs data.tags = .ok tnames) :
    enhance_post cats tgs data = .ok
      { published := { d with tzUtc := true },
        modified := { m with tzUtc := true },
        title := unescape data.title.rendered, slug := data.slug,
        content := unescape data.content.rendered,
        summary := unescape data.excerpt.rendered,
        aliases := [], categories := cnames, tags := tnames,
        author := "" } := by
  have hdn := fromisoformat_tz _ _ hd
  have hmn := fromisoformat_tz _ _ hm
  simp [enhance_post, hd, hm, utcLocalize, hdn, hmn, hc, ht]

/-- A fully-populated cache resolves every id, in id-list order. -/
lemma resolveNames_isSome_ok (cache : Nat → Option TermRec) (ids : List Nat)
    (h : ∀ i ∈ ids, (cache i).isSome) :
    resolveNames cache ids
      = .ok (ids.map fun i => ((cache i).getD ⟨0, ""⟩).name) := by
  induction ids with
  | nil => rfl
  | cons i is ih =>
    rcases Option.isSome_iff_exists.mp (h i (by simp)) with ⟨r, hr⟩
    simp [resolveNames, hr, ih (fun j hj => h j (by simp [hj]))]

/-- A missing id makes `resolveNames` raise `KeyError` on some missing
id of the list. -/
lemma resolveNames_missing (cache : Nat → Option TermRec) (ids : List Nat)
    (h : ∃ i ∈ ids, cache i = none) :
    ∃ j ∈ ids, cache j = none
      ∧ resolveNames cache ids = .error (.keyError j) := by
  induction ids with
  | nil => simp at h
  | cons i is ih =>
    by_cases hi : cache i = none
    · exact ⟨i, by simp, hi, by simp [resolveNames, hi]⟩
    · rcases Option.ne_none_iff_exists.mp hi with ⟨r, hr⟩
      have h2 : ∃ j ∈ is, cache j = none := by
        rcases h with ⟨j, hj, hnone⟩
        rcases List.mem_cons.mp hj with rfl | hj2
        · exact absurd hnone hi
        · exact ⟨j, hj2, hnone⟩
      rcases ih h2 with ⟨j, hj, hnone, herr⟩
      exact ⟨j, by simp [hj], hnone, by simp [resolveNames, ← hr, herr]⟩

/-- Distinct slugs write to distinct files. -/
lemma postFilePath_inj (base : List String) (a b : String)
    (h : postFilePath base a = postFilePath base b) : a = b := by
  simp only [postFilePath] at h
  have h2 := List.append_cancel_right h
  have h3 := List.append_cancel_left h2
  simpa using h3

/-- `add_post` leaves every file other than its own target untouched. -/
lemma add_post_files_other (base : List String) (fs : FS) (p : Post)
    (path : List String) (h : path ≠ postFilePath base p.slug) :
    (add_post base fs p).files path = fs.files path := by
  simp only [add_post, mkdirParents, postFilePath] at h ⊢
  rw [if_neg h]

/-- The pipeline only ever writes at its own posts' target paths: any
other path keeps its previous content (in particular, nothing is ever
deleted). -/
lemma runPipeline_files_other (cats tgs : Nat → Option TermRec)
    (base : List String) (raws : List RawPost) (fs : FS)
    (path : List String)
    (h : ∀ r ∈ raws, ∀ p : Post, enhance_post cats tgs r = .ok p →
      path ≠ postFilePath base p.slug) :
    ((runPipeline cats tgs base raws fs).1).files path = fs.files path := by
  induction raws generalizing fs with
  | nil => rfl
  | cons r rest ih =>
    simp only [runPipeline]
    cases henh : enhance_post cats tgs r with
    | error e => rfl
    | ok p =>
      rw [ih _ (fun r2 h2 p2 hp2 => h r2 (by simp [h2]) p2 hp2)]
      exact add_post_files_other base fs p path (h r (by simp) p henh)

/-- A prefix of records that all normalize lets the pipeline continue on
the remainder from the state the prefix produced. -/
lemma runPipeline_append (cats tgs : Nat → Option TermRec)
    (base : List String) (pre l : List RawPost) (fs : FS)
    (hpre : ∀ r ∈ pre, ∃ p, enhance_post cats tgs r = .ok p) :
    runPipeline cats tgs base (pre ++ l) fs
      = runPipeline cats tgs base l (runPipeline cats tgs base pre fs).1 := by
  induction pre generalizing fs with
  | nil => rfl
  | cons r rest ih =>
    rcases hpre r (by simp) with ⟨p, hp⟩
    simp only [List.cons_append, runPipeline, hp]
    exact ih _ (fun r2 h2 => hpre r2 (by simp [h2]))

/-- Every request the pagination loop issues is a page request built by
`mkPageRequest`. -/
lemma pageWhileListAux_requests {α : Type} (server : Request → Option (List α))
    (url : String) :
    ∀ (fuel start : Nat), ∀ req ∈ (pageWhileListAux server url start fuel).2,
      ∃ n, start ≤ n ∧ req = mkPageRequest url n := by
  intro fuel
  induction fuel with
  | zero => intro start req hreq; simp [pageWhileListAux] at hreq
  | succ f ih =>
    intro start req hreq
    cases hs : server (mkPageRequest url start) with
    | none =>
      simp only [pageWhileListAux, hs] at hreq
      rcases List.mem_singleton.mp hreq with rfl
      exact ⟨start, le_refl _, rfl⟩
    | some items =>
      by_cases hl : items.length > 0
      · simp only [pageWhileListAux, hs, if_pos hl] at hreq
        rcases List.mem_cons.mp hreq with rfl | h2
        · exact ⟨start, le_refl _, rfl⟩
        · rcases ih (start + 1) req h2 with ⟨n, hn, rfl⟩
          exact ⟨n, by omega, rfl⟩
      · simp only [pageWhileListAux, hs, if_neg hl] at hreq
        rcases List.mem_singleton.mp hreq with rfl
        exact ⟨start, le_refl _, rfl⟩

/-- Behaviour of the pagination loop on a server with a block of
non-empty pages starting at `start` followed by an empty or non-list
page: it yields the concatenation and requests exactly the pages
`start .. start + pages.length`, each once. -/
lemma pageWhileListAux_spec {α : Type} (server : Request → Option (List α))
    (url : String) :
    ∀ (pages : List (List α)) (start fuel : Nat),
    (∀ pg ∈ pages, pg ≠ []) →
    (∀ i (h : i < pages.length),
      server (mkPageRequest url (start + i)) = some (pages.get ⟨i, h⟩)) →
    (server (mkPageRequest url (start + pages.length)) = none
      ∨ server (mkPageRequest url (start + pages.length)) = some []) →
    pages.length + 1 ≤ fuel →
    pageWhileListAux server url start fuel
      = (pages.flatten,
         (List.range' start (pages.length + 1)).map (mkPageRequest url)) := by
  intro pages
  induction pages with
  | nil =>
    intro start fuel _ _ hstop hfuel
    match fuel, hfuel with
    | f + 1, _ =>
      rcases hstop with h | h <;>
        simp only [List.length_nil, Nat.add_zero] at h <;>
        simp [pageWhileListAux, h, List.range']
  | cons pg rest ih =>
    intro start fuel hne hsrv hstop hfuel
    match fuel, hfuel with
    | f + 1, hf =>
      have h0 : server (mkPageRequest url start) = some pg := by
        have := hsrv 0 (by simp)
        simpa using this
      have hlen : pg.length > 0 :=
        List.length_pos.mpr (hne pg (by simp))
      have hrec := ih (start + 1) f
        (fun pg2 h2 => hne pg2 (by simp [h2]))
        (fun i h => by
          have := hsrv (i + 1) (by simpa using Nat.succ_lt_succ h)
          simpa [Nat.add_comm, Nat.add_assoc, Nat.add_left_comm] using this)
        (by
          have : start + 1 + rest.length = start + (pg :: rest).length := by
            simp [Nat.add_comm, Nat.add_assoc, Nat.add_left_comm]
          rw [this]
          exact hstop)
        (by simp at hf ⊢; omega)
      simp only [pageWhileListAux, h0, if_pos hlen, hrec]
      simp [List.range'_succ]

/-! ## Claim theorems -/

/-- C1: the claim says every page request of the paginated list fetcher
carries `per_page=100`, `order=asc` and `orderby=id` besides `page=N`.
On the code this fails: `pageWhileList` issues
`self.get(url=url, params=dict(page=page))`, so every request carries
the single query parameter `page`; the `base_params` default declaring
exactly those three parameters is never merged into any request. -/
theorem c1_page_requests_carry_only_page {α : Type}
    (server : Request → Option (List α)) (url : String) (fuel : Nat)
    (req : Request)
    (h : req ∈ (pageWhileList server url base_params_default fuel).2) :
    ∃ n : Nat, req.params = [("page", toString n)]
      ∧ ("per_page", "100") ∉ req.params
      ∧ ("order", "asc") ∉ req.params
      ∧ ("orderby", "id") ∉ req.params := by
  rcases pageWhileListAux_requests server url fuel 1 req h with ⟨n, -, rfl⟩
  refine ⟨n, rfl, ?_, ?_, ?_⟩ <;> simp [mkPageRequest, Extractor.get]

/-- Witness for C1 at a concrete input: the single request of a fetch
against a server whose first page is already empty. -/
theorem c1_page_requests_carry_only_page_witness :
    ∃ n : Nat, (mkPageRequest "https://blog.example" 1).params = [("page", toString n)]
      ∧ ("per_page", "100") ∉ (mkPageRequest "https://blog.example" 1).params
      ∧ ("order", "asc") ∉ (mkPageRequest "https://blog.example" 1).params
      ∧ ("orderby", "id") ∉ (mkPageRequest "https://blog.example" 1).params :=
  c1_page_requests_carry_only_page (α := Nat) (fun _ => some [])
    "https://blog.example" 1 (mkPageRequest "https://blog.example" 1)
    (by simp [pageWhileList, pageWhileListAux])

/-- C2: for a server answering pages 1..N with non-empty lists and page
N+1 with an empty list or a non-list body, `pageWhileList` yields exactly
the concatenation of pages 1..N in order, and its requests are exactly
pages 1, 2, ..., N+1, each once and none beyond. -/
theorem c2_pagination_yields_concatenation {α : Type}
    (server : Request → Option (List α))
    (url : String) (pages : List (List α)) (fuel : Nat)
    (hne : ∀ pg ∈ pages, pg ≠ [])
    (hsrv : ∀ i (h : i < pages.length),
      server (mkPageRequest url (1 + i)) = some (pages.get ⟨i, h⟩))
    (hstop : server (mkPageRequest url (1 + pages.length)) = none
      ∨ server (mkPageRequest url (1 + pages.length)) = some [])
    (hfuel : pages.length + 1 ≤ fuel) :
    pageWhileList server url base_params_default fuel
      = (pages.flatten,
         (List.range' 1 (pages.length + 1)).map (mkPageRequest url)) :=
  pageWhileListAux_spec server url pages 1 fuel hne hsrv hstop hfuel

/-- Witness for C2 at a concrete input: two non-empty pages then an
empty page. -/
theorem c2_pagination_yields_concatenation_witness :
    pageWhileList
      (fun r => if r.params = [("page", "1")] then some [10, 20]
        else if r.params = [("page", "2")] then some [30]
        else some ([] : List Nat))
      "https://blog.example" base_params_default 3
      = ([10, 20, 30],
         [mkPageRequest "https://blog.example" 1,
          mkPageRequest "https://blog.example" 2,
          mkPageRequest "https://blog.example" 3]) := by
  have h := c2_pagination_yields_concatenation
    (fun r => if r.params = [("page", "1")] then some [10, 20]
      else if r.params = [("page", "2")] then some [30]
      else some ([] : List Nat))
    "https://blog.example" [[10, 20], [30]] 3
    (by decide)
    (by intro i hi; simp at hi; interval_cases i <;> rfl)
    (by right; rfl)
    (by simp)
  simpa [List.range'] using h

/-- C3: on a raw record whose category and tag ids are all in the
caches (and whose timestamps parse), `enhance_post` yields a Post whose
categories and tags are the caches' `name` values in id-list order,
whose title/content/summary are the HTML-unescaped `rendered` fields,
whose slug is unchanged, whose aliases are empty and whose author is the
empty string. -/
theorem c3_enhance_post_field_mapping (cats tgs : Nat → Option TermRec)
    (data : RawPost) (d m : PyDateTime)
    (hd : fromisoformat data.date_gmt = some d)
    (hm : fromisoformat data.modified_gmt = some m)
    (hc : ∀ i ∈ data.categories, (cats i).isSome)
    (ht : ∀ i ∈ data.tags, (tgs i).isSome) :
    ∃ post : Post, enhance_post cats tgs data = .ok post
      ∧ post.categories
          = data.categories.map (fun i => ((cats i).getD ⟨0, ""⟩).name)
      ∧ post.tags = data.tags.map (fun i => ((tgs i).getD ⟨0, ""⟩).name)
      ∧ post.title = unescape data.title.rendered
      ∧ post.content = unescape data.content.rendered
      ∧ post.summary = unescape data.excerpt.rendered
      ∧ post.slug = data.slug
      ∧ post.aliases = []
      ∧ post.author = "" :=
  ⟨_, enhance_post_ok cats tgs data d m _ _ hd hm
      (resolveNames_isSome_ok cats data.categories hc)
      (resolveNames_isSome_ok tgs data.tags ht),
    rfl, rfl, rfl, rfl, rfl, rfl, rfl, rfl⟩

/-- Witness for C3 on the spec's example: caches 3↦News, 7↦Events,
record with categories [3,7], tags [], title `A &amp; B`. -/
theorem c3_enhance_post_field_mapping_witness :
    ∃ post : Post, enhance_post sampleCats sampleTags sampleRaw = .ok post
      ∧ post.categories = ["News", "Events"]
      ∧ post.tags = []
      ∧ post.title = "A & B"
      ∧ post.content = "Body & soul"
      ∧ post.summary = "Sum"
      ∧ post.slug = "hello-world"
      ∧ post.aliases = []
      ∧ post.author = "" := by
  obtain ⟨post, h1, h2, h3, h4, h5, h6, h7, h8, h9⟩ :=
    c3_enhance_post_field_mapping sampleCats sampleTags sampleRaw
      ⟨2020, 1, 2, 3, 4, 5, 0, false⟩ ⟨2020, 3, 4, 5, 6, 7, 0, false⟩
      (by decide) (by decide) (by decide) (by decide)
  exact ⟨post, h1, by rw [h2]; decide, by rw [h3]; decide, by rw [h4]; decide,
    by rw [h5]; decide, by rw [h6]; decide, h7, h8, h9⟩

/-- C4: a raw record referencing a category or tag id absent from the
caches makes `enhance_post` raise `KeyError`; the driving loop stops
there with the filesystem exactly as the successfully processed prefix
left it — earlier posts' files are in place, and the failing post's file
was not written (if nothing else wrote at its path). -/
theorem c4_missing_id_aborts_run (cats tgs : Nat → Option TermRec)
    (base : List String) (pre rest : List RawPost) (bad : RawPost) (fs : FS)
    (hd : (fromisoformat bad.date_gmt).isSome = true)
    (hm : (fromisoformat bad.modified_gmt).isSome = true)
    (hmiss : (∃ i ∈ bad.categories, cats i = none)
      ∨ ((∀ i ∈ bad.categories, (cats i).isSome)
          ∧ ∃ i ∈ bad.tags, tgs i = none))
    (hpre : ∀ r ∈ pre, ∃ p, enhance_post cats tgs r = .ok p) :
    ∃ j : Nat,
      enhance_post cats tgs bad = .error (.keyError j)
      ∧ runPipeline cats tgs base (pre ++ bad :: rest) fs
          = ((runPipeline cats tgs base pre fs).1, some (.keyError j))
      ∧ ((∀ r ∈ pre, ∀ p : Post,
            enhance_post cats tgs r = .ok p → p.slug ≠ bad.slug) →
          ((runPipeline cats tgs base (pre ++ bad :: rest) fs).1).files
              (postFilePath base bad.slug)
            = fs.files (postFilePath base bad.slug)) := by
  rcases Option.isSome_iff_exists.mp hd with ⟨d, hdd⟩
  rcases Option.isSome_iff_exists.mp hm with ⟨m, hmm⟩
  have hdn := fromisoformat_tz _ _ hdd
  have hmn := fromisoformat_tz _ _ hmm
  have herr : ∃ j : Nat, enhance_post cats tgs bad = .error (.keyError j) := by
    rcases hmiss with hcat | ⟨hall, htag⟩
    · rcases resolveNames_missing cats bad.categories hcat with ⟨j, -, -, hj⟩
      exact ⟨j, by simp [enhance_post, hdd, hmm, utcLocalize, hdn, hmn, hj]⟩
    · have hok := resolveNames_isSome_ok cats bad.categories hall
      rcases resolveNames_missing tgs bad.tags htag with ⟨j, -, -, hj⟩
      exact ⟨j, by simp [enhance_post, hdd, hmm, utcLocalize, hdn, hmn, hok, hj]⟩
  rcases herr with ⟨j, hj⟩
  have hrun : runPipeline cats tgs base (pre ++ bad :: rest) fs
      = ((runPipeline cats tgs base pre fs).1, some (.keyError j)) := by
    rw [runPipeline_append cats tgs base pre (bad :: rest) fs hpre]
    simp [runPipeline, hj]
  refine ⟨j, hj, hrun, fun hslugs => ?_⟩
  rw [hrun]
  exact runPipeline_files_other cats tgs base pre fs _ (fun r hr p hp hEq =>
    hslugs r hr p hp (postFilePath_inj base p.slug bad.slug hEq.symm))

/-- Witness for C4: one good post, then a post whose category id 5 is
not in the cache. -/
theorem c4_missing_id_aborts_run_witness :
    ∃ j : Nat,
      enhance_post sampleCats sampleTags badRaw = .error (.keyError j)
      ∧ runPipeline sampleCats sampleTags ["site"] ([sampleRaw] ++ badRaw :: []) emptyFS
          = ((runPipeline sampleCats sampleTags ["site"] [sampleRaw] emptyFS).1,
             some (.keyError j))
      ∧ ((∀ r ∈ [sampleRaw], ∀ p : Post,
            enhance_post sampleCats sampleTags r = .ok p → p.slug ≠ badRaw.slug) →
          ((runPipeline sampleCats sampleTags ["site"]
              ([sampleRaw] ++ badRaw :: []) emptyFS).1).files
              (postFilePath ["site"] badRaw.slug)
            = emptyFS.files (postFilePath ["site"] badRaw.slug)) :=
  c4_missing_id_aborts_run sampleCats sampleTags ["site"] [sampleRaw] [] badRaw emptyFS
    (by decide) (by decide)
    (Or.inl ⟨5, by decide, rfl⟩)
    (fun r hr => by
      rcases List.mem_singleton.mp hr with rfl
      exact ⟨_, rfl⟩)

/-- C5: the rendered document is `json.dumps` of one metadata object with
keys in the fixed order title, categories, tags, aliases, author, date,
lastmod, slug, summary, followed by a blank line, followed by the content
text verbatim (no further escaping or fencing of the content). -/
theorem c5_md_metadata_blank_line_content (p : Post) :
    p.md = String.mk (jsonDumps
        [("title", JVal.str p.title), ("categories", JVal.arr p.categories),
         ("tags", JVal.arr p.tags), ("aliases", JVal.arr p.aliases),
         ("author", JVal.str p.author),
         ("date", JVal.str p.published.isoformat),
         ("lastmod", JVal.str p.modified.isoformat),
         ("slug", JVal.str p.slug), ("summary", JVal.str p.summary)])
      ++ "\n\n" ++ p.content :=
  rfl

/-- C6: `add_post` creates `<base>/content/posts/<slug>/` (with every
parent), writes the rendered document to `index.md` inside it
unconditionally, and on two same-slug posts in sequence the file holds
the second post's document. -/
theorem c6_add_post_creates_and_overwrites (base : List String) (p q : Post)
    (fs : FS) (hslug : p.slug = q.slug) :
    (add_post base fs p).dirs (posts_directory base ++ [p.slug]) = true
    ∧ (∀ d, d <+: posts_directory base ++ [p.slug] →
        (add_post base fs p).dirs d = true)
    ∧ (add_post base fs p).files (postFilePath base p.slug) = some p.md
    ∧ (add_post base (add_post base fs p) q).files (postFilePath base p.slug)
        = some q.md := by
  refine ⟨?_, ?_, ?_, ?_⟩
  · simp [add_post, mkdirParents, List.prefix_refl]
  · intro d hd
    simp [add_post, mkdirParents, hd]
  · simp [add_post, mkdirParents, postFilePath]
  · rw [hslug]
    simp [add_post, mkdirParents, postFilePath]

/-- Witness for C6: two posts sharing the slug `hello-world` written to
an empty filesystem. -/
theorem c6_add_post_creates_and_overwrites_witness :
    (add_post ["site"] emptyFS samplePost).dirs
        (posts_directory ["site"] ++ [samplePost.slug]) = true
    ∧ (∀ d, d <+: posts_directory ["site"] ++ [samplePost.slug] →
        (add_post ["site"] emptyFS samplePost).dirs d = true)
    ∧ (add_post ["site"] emptyFS samplePost).files
        (postFilePath ["site"] samplePost.slug) = some samplePost.md
    ∧ (add_post ["site"] (add_post ["site"] emptyFS samplePost)
          samplePost2).files (postFilePath ["site"] samplePost.slug)
        = some samplePost2.md :=
  c6_add_post_creates_and_overwrites ["site"] samplePost samplePost2 emptyFS rfl

/-- C7: an offset-free `date_gmt` (resp. `modified_gmt`) is parsed,
tagged UTC, and its ISO rendering in the front matter carries the
`+00:00` offset appended to the naive rendering. -/
theorem c7_timestamps_rendered_utc (cats tgs : Nat → Option TermRec)
    (data : RawPost) (d m : PyDateTime) (cnames tnames : List String)
    (hd : fromisoformat data.date_gmt = some d)
    (hm : fromisoformat data.modified_gmt = some m)
    (hc : resolveNames cats data.categories = .ok cnames)
    (ht : resolveNames tgs data.tags = .ok tnames) :
    ∃ post : Post, enhance_post cats tgs data = .ok post
      ∧ post.published.tzUtc = true
      ∧ post.modified.tzUtc = true
      ∧ post.published.isoformat = d.isoformat ++ "+00:00"
      ∧ post.modified.isoformat = m.isoformat ++ "+00:00" := by
  refine ⟨_, enhance_post_ok cats tgs data d m cnames tnames hd hm hc ht,
    rfl, rfl, ?_, ?_⟩
  · exact isoformat_localized d (fromisoformat_tz _ _ hd)
  · exact isoformat_localized m (fromisoformat_tz _ _ hm)

/-- Witness for C7 on the spec's example `2020-01-02T03:04:05`. -/
theorem c7_timestamps_rendered_utc_witness :
    ∃ post : Post, enhance_post sampleCats sampleTags sampleRaw = .ok post
      ∧ post.published.tzUtc = true
      ∧ post.modified.tzUtc = true
      ∧ post.published.isoformat = "2020-01-02T03:04:05+00:00"
      ∧ post.modified.isoformat = "2020-03-04T05:06:07+00:00" := by
  obtain ⟨post, h1, h2, h3, h4, h5⟩ :=
    c7_timestamps_rendered_utc sampleCats sampleTags sampleRaw
      ⟨2020, 1, 2, 3, 4, 5, 0, false⟩ ⟨2020, 3, 4, 5, 6, 7, 0, false⟩
      ["News", "Events"] []
      (by decide) (by decide) rfl rfl
  exact ⟨post, h1, h2, h3, by rw [h4]; decide, by rw [h5]; decide⟩

/-- C8: each reference cache is populated by at most one paginated
fetch per extractor instance: the first access fetches and stores the
dict, every later access returns the memoized dict with the state
unchanged and no fetch (whatever the server would now answer), and
populating the other cache leaves it untouched. -/
theorem c8_caches_memoized_write_once (cs ts : Request → Option (List TermRec))
    (u : String) (f : Nat) (s0 : ExtractorState)
    (hc : s0.categoriesCache = none) (ht : s0.tagsCache = none) :
    ((getCategories cs u f s0).2.2 = true)
    ∧ (∀ cs2 f2, getCategories cs2 u f2 (getCategories cs u f s0).2.1
        = ((getCategories cs u f s0).1, (getCategories cs u f s0).2.1, false))
    ∧ (∀ ts2 f2, ((getTags ts2 u f2 (getCategories cs u f s0).2.1).2.1).categoriesCache
        = some (getCategories cs u f s0).1)
    ∧ ((getTags ts u f s0).2.2 = true)
    ∧ (∀ ts2 f2, getTags ts2 u f2 (getTags ts u f s0).2.1
        = ((getTags ts u f s0).1, (getTags ts u f s0).2.1, false))
    ∧ (∀ cs2 f2, ((getCategories cs2 u f2 (getTags ts u f s0).2.1).2.1).tagsCache
        = some (getTags ts u f s0).1) := by
  refine ⟨?_, ?_, ?_, ?_, ?_, ?_⟩
  · simp [getCategories, hc]
  · intro cs2 f2
    simp [getCategories, hc]
  · intro ts2 f2
    simp [getCategories, getTags, hc, ht]
  · simp [getTags, ht]
  · intro ts2 f2
    simp [getTags, ht]
  · intro cs2 f2
    simp [getCategories, getTags, hc, ht]

/-- Witness for C8 on a fresh extractor state against a server with no
categories and no tags. -/
theorem c8_caches_memoized_write_once_witness :
    ((getCategories (fun _ => some []) "https://blog.example" 1
        ExtractorState.init).2.2 = true)
    ∧ (∀ cs2 f2, getCategories cs2 "https://blog.example" f2
          (getCategories (fun _ => some []) "https://blog.example" 1
            ExtractorState.init).2.1
        = ((getCategories (fun _ => some []) "https://blog.example" 1
              ExtractorState.init).1,
           (getCategories (fun _ => some []) "https://blog.example" 1
              ExtractorState.init).2.1, false))
    ∧ (∀ ts2 f2, ((getTags ts2 "https://blog.example" f2
          (getCategories (fun _ => some []) "https://blog.example" 1
            ExtractorState.init).2.1).2.1).categoriesCache
        = some (getCategories (fun _ => some []) "https://blog.example" 1
            ExtractorState.init).1)
    ∧ ((getTags (fun _ => some []) "https://blog.example" 1
        ExtractorState.init).2.2 = true)
    ∧ (∀ ts2 f2, getTags ts2 "https://blog.example" f2
          (getTags (fun _ => some []) "https://blog.example" 1
            ExtractorState.init).2.1
        = ((getTags (fun _ => some []) "https://blog.example" 1
              ExtractorState.init).1,
           (getTags (fun _ => some []) "https://blog.example" 1
              ExtractorState.init).2.1, false))
    ∧ (∀ cs2 f2, ((getCategories cs2 "https://blog.example" f2
          (getTags (fun _ => some []) "https://blog.example" 1
            ExtractorState.init).2.1).2.1).tagsCache
        = some (getTags (fun _ => some []) "https://blog.example" 1
            ExtractorState.init).1) :=
  c8_caches_memoized_write_once (fun _ => some []) (fun _ => some [])
    "https://blog.example" 1 ExtractorState.init rfl rfl

/-- C9: writing the same post twice is idempotent on the filesystem
state (the second write replaces the file with identical content), and a
pipeline run never changes — in particular never removes — any file
outside the target paths of the posts it writes. -/
theorem c9_rewrite_stable_no_reconciliation :
    (∀ (base : List String) (fs : FS) (p : Post),
       add_post base (add_post base fs p) p = add_post base fs p)
    ∧ (∀ (cats tgs : Nat → Option TermRec) (base : List String)
         (raws : List RawPost) (fs : FS) (path : List String),
         (∀ r ∈ raws, ∀ p : Post, enhance_post cats tgs r = .ok p →
            path ≠ postFilePath base p.slug) →
         ((runPipeline cats tgs base raws fs).1).files path
           = fs.files path) := by
  constructor
  · intro base fs p
    apply FS.ext
    · funext d
      simp only [add_post, mkdirParents]
      split_ifs <;> rfl
    · funext q
      simp only [add_post, mkdirParents]
      split_ifs <;> rfl
  · intro cats tgs base raws fs path h
    exact runPipeline_files_other cats tgs base raws fs path h

/-- Witness for C9: double write of a concrete post, and a pipeline run
leaving an unrelated path untouched. -/
theorem c9_rewrite_stable_no_reconciliation_witness :
    add_post ["site"] (add_post ["site"] emptyFS samplePost) samplePost
        = add_post ["site"] emptyFS samplePost
    ∧ ((runPipeline sampleCats sampleTags ["site"] [sampleRaw] emptyFS).1).files
          ["untouched.txt"]
        = emptyFS.files ["untouched.txt"] := by
  refine ⟨c9_rewrite_stable_no_reconciliation.1 ["site"] emptyFS samplePost,
    c9_rewrite_stable_no_reconciliation.2 sampleCats sampleTags ["site"]
      [sampleRaw] emptyFS ["untouched.txt"] ?_⟩
  intro r hr p hp
  simp [postFilePath, posts_directory]

/-- C10: whatever the post's fields hold (newlines included), the
serialized front matter contains no newline character, so the rendered
document is always the one-line metadata object, an empty second line,
and then the content. -/
theorem c10_front_matter_single_line (p : Post) :
    (p.front_matter).data.contains '\n' = false
    ∧ (p.md).data
        = (p.front_matter).data ++ '\n' :: '\n' :: p.content.data := by
  constructor
  · simpa using jsonDumps_no_nl (frontMatterPairs p)
  · show (p.front_matter ++ "\n\n" ++ p.content).data = _
    rw [String.data_append, String.data_append]
    simp

end Wordpirate
